import Mathlib

/-!
Verification development for a fingerprint-to-flareplot converter.

The program converts a boolean interaction-frequency table (rows = frames,
columns = (ligand, protein, interaction-type) triples) into a graph JSON
document with edges, track properties and tree properties.  The embedding
below follows the single source file function by function:

* `matchResidue` / `convert_aa_code` embed the residue-label normalizer
  built on the anchored regular expression ([A-Z]\x7b3\x7d)(\d+)\.([A-Z0-9]+);
* `retainedIdx` / `dfThreshold` embed the threshold filter
  (per-column mean presence frequency compared against the threshold);
* `interaction_colors` / `edgeColor` embed the fixed interaction palette
  with its hash-derived fallback;
* `colRecords` / `convertLoop` / `convert_prolif_df_to_enhanced_json`
  embed the column loop that assembles edges, tracks and trees;
* `generate_flareplot_from_fingerprint` composes filter and conversion
  (the file-loading and HTML-wrapping steps are outside the data model).

The Python builtin string `hash` is process-seeded, and the chain-color
derivation additionally runs through floating-point HSV conversion, so those
two ingredients are abstracted as explicit function parameters `h`
(string hash) and `g` (chain-id to color); everything downstream of them is
embedded exactly.  Machine floats only occur in those abstracted colors; the
weights are exact ratios of machine integers and are modelled in ℚ.
-/

namespace Flareplot

/-- Character class of the regex fragment [A-Z]. -/
def isUpperAZ (c : Char) : Bool := 'A' ≤ c && c ≤ 'Z'

/-- Character class of the regex fragment \d as it applies here (ASCII digits). -/
def isDigit09 (c : Char) : Bool := '0' ≤ c && c ≤ '9'

/-- Character class of the regex fragment [A-Z0-9] (the chain token). -/
def isChainChar (c : Char) : Bool := isUpperAZ c || isDigit09 c

/-- Embedding of re.match of the pattern ([A-Z]\x7b3\x7d)(\d+)\.([A-Z0-9]+)
against a string: anchored at the start, not at the end.  Greedy matching of
each group is exact maximal munch here because a digit is never a period and
the final group has no successor.  Returns the three captured groups. -/
def matchResidue : List Char → Option (List Char × List Char × List Char)
  | a :: b :: c :: rest =>
    if isUpperAZ a && isUpperAZ b && isUpperAZ c then
      let num := rest.takeWhile isDigit09
      let rest2 := rest.dropWhile isDigit09
      if num = [] then none
      else
        match rest2 with
        | '.' :: rest3 =>
          let chain := rest3.takeWhile isChainChar
          if chain = [] then none else some ([a, b, c], num, chain)
        | _ => none
    else none
  | _ => none

/-- The fixed 20-entry three-letter to one-letter amino-acid table
(source lines 74-79). -/
def aa_code_map : List (String × String) :=
  [("ALA", "A"), ("ARG", "R"), ("ASN", "N"), ("ASP", "D"), ("CYS", "C"),
   ("GLU", "E"), ("GLN", "Q"), ("GLY", "G"), ("HIS", "H"), ("ILE", "I"),
   ("LEU", "L"), ("LYS", "K"), ("MET", "M"), ("PHE", "F"), ("PRO", "P"),
   ("SER", "S"), ("THR", "T"), ("TRP", "W"), ("TYR", "Y"), ("VAL", "V")]

/-- The label normalizer `convert_aa_code` (source lines 112-122): on a match
rewrite "LYS123.A" style labels to "A.K123", keeping unrecognized three-letter
codes as-is; on a non-match return the input unchanged. -/
def convert_aa_code (residue_string : String) : String :=
  match matchResidue residue_string.toList with
  | some (three, num, chain) =>
    let three_letter := String.mk three
    let one_letter :=
      (aa_code_map.lookup (String.mk (three.map Char.toUpper))).getD three_letter
    String.mk chain ++ "." ++ one_letter ++ String.mk num
  | none => residue_string

/-- Python str.split with a single period separator, on the character list
(always returns a non-empty list). -/
def splitDot : List Char → List (List Char)
  | [] => [[]]
  | c :: cs =>
    match splitDot cs with
    | [] => [[c]]
    | x :: xs => if c = '.' then [] :: x :: xs else (c :: x) :: xs

/-- Embedding of the period split of a name from the source (lines 139-140,
168-169, 176, 182). -/
def splitOnDot (s : String) : List String := (splitDot s.toList).map String.mk

/-- The interaction table: rows are frames, columns are
(ligand, protein, interaction-type) triples; a cell is a truthy flag. -/
structure DataFrame where
  columns : List (String × String × String)
  rows : List (List Bool)
deriving DecidableEq

/-- total_frames = len of df.index (source line 109). -/
def totalFrames (df : DataFrame) : Nat := df.rows.length

/-- frame_count of a column: the loop of source lines 153-156 counting frames
whose cell in the column is truthy. -/
def frameCount (df : DataFrame) (j : Nat) : Nat :=
  df.rows.countP (fun r => r.getD j false)

/-- Per-column mean presence frequency, df.mean of axis 0 (source line 37),
meaningful only when the table has at least one row. -/
def colFreq (df : DataFrame) (j : Nat) : ℚ :=
  (frameCount df j : ℚ) / (totalFrames df : ℚ)

/-- Column indices retained by interaction_frequency >= threshold (source
lines 37-38), in column order.  On a table with zero rows the pandas mean of
every column is NaN and NaN >= threshold is false, so no column is retained. -/
def retainedIdx (threshold : ℚ) (df : DataFrame) : List Nat :=
  if totalFrames df = 0 then []
  else (List.range df.columns.length).filter (fun j => decide (threshold ≤ colFreq df j))

/-- The column triple at an index. -/
def colAt (df : DataFrame) (j : Nat) : String × String × String :=
  df.columns.getD j ("", "", "")

/-- df_threshold = df of filtered_columns (source line 39): the table
restricted to the retained columns. -/
def dfThreshold (threshold : ℚ) (df : DataFrame) : DataFrame :=
  ⟨(retainedIdx threshold df).map (colAt df),
   df.rows.map (fun r => (retainedIdx threshold df).map (fun j => r.getD j false))⟩

/-- The fixed ProLIF interaction palette (source lines 55-71). -/
def interaction_colors : List (String × String) :=
  [("Hydrophobic", "#905000"), ("HBDonor", "#0000FF"), ("HBAcceptor", "#FF0000"),
   ("PiStacking", "#00FF00"), ("Anionic", "#A00000"), ("Cationic", "#0000A0"),
   ("CationPi", "#00A000"), ("PiCation", "#00A000"), ("VdWContact", "#505050"),
   ("EdgeToFace", "#00FF00"), ("FaceToFace", "#00FF00"), ("MetalAcceptor", "#8080FF"),
   ("MetalDonor", "#8080FF"), ("XBAcceptor", "#FF8080"), ("XBDonor", "#FF8080")]

/-- Python format spec 06x: lowercase hexadecimal padded with zeros to at
least six digits. -/
def hex6 (n : Nat) : String :=
  let ds := Nat.toDigits 16 n
  String.mk (List.replicate (6 - ds.length) '0' ++ ds)

/-- Edge color (source line 164): palette lookup with the hash-derived
fallback "#" ++ 06x of hash mod 0xffffff; `h` abstracts the process-seeded
Python string hash. -/
def edgeColor (h : String → Nat) (interaction_type : String) : String :=
  (interaction_colors.lookup interaction_type).getD ("#" ++ hex6 (h interaction_type % 0xffffff))

/-- weight = frame_count / total_frames if total_frames > 0 else 0
(source line 159). -/
def weightOf (df : DataFrame) (j : Nat) : ℚ :=
  if 0 < totalFrames df then (frameCount df j : ℚ) / (totalFrames df : ℚ) else 0

/-- An edge record of the output document (source lines 167-173). -/
structure Edge where
  name1 : String
  name2 : String
  width : ℚ
  frames : List Nat
  color : String
deriving DecidableEq

/-- A track-property record (source lines 175-185). -/
structure TrackProp where
  nodeName : String
  color : String
  size : ℚ
deriving DecidableEq

/-- A tree-property record (source lines 187-188). -/
structure TreeProp where
  path : String
deriving DecidableEq

/-- The single track group (source lines 86-91). -/
structure Track where
  trackLabel : String
  trackProperties : List TrackProp
deriving DecidableEq

/-- The single tree group (source lines 92-97). -/
structure Tree where
  treeName : String
  treeProperties : List TreeProp
deriving DecidableEq

/-- The output document assembled by the conversion. -/
structure FlareOutput where
  edges : List Edge
  tracks : List Track
  trees : List Tree
deriving DecidableEq

/-- One iteration of the column loop (source lines 129-188): the records the
iteration appends for column `j`.  `g` abstracts get_chain_color (a pure
function of the chain id built from the seeded hash and a float HSV
conversion; the per-invocation chain_colors cache is observationally the
direct application of that function) and `h` abstracts the Python string hash
in the fallback edge color.  The result is an Except because
indexing the period split of a name at [1] raises IndexError when the name has no
period; the records for zero-count columns are all empty (lines 162-188 are
guarded by frame_count > 0, so the indexing is never reached there). -/
def colRecords (g : String → String) (h : String → Nat) (df : DataFrame) (j : Nat) :
    Except String (List Edge × List TrackProp × List TreeProp) :=
  let ligand := (colAt df j).1
  let protein := (colAt df j).2.1
  let interaction_type := (colAt df j).2.2
  let name1 := convert_aa_code ligand
  let name2 := convert_aa_code protein
  let chain1 := (splitOnDot name1).headD ""
  let chain2 := (splitOnDot name2).headD ""
  if 0 < frameCount df j then
    match (splitOnDot name1).get? 1, (splitOnDot name2).get? 1 with
    | some n1, some n2 =>
      Except.ok
        ([⟨n1, n2, weightOf df j, [0], edgeColor h interaction_type⟩],
         [⟨n1, g chain1, weightOf df j * 2⟩, ⟨n2, g chain2, weightOf df j * 2⟩],
         [⟨name1⟩, ⟨name2⟩])
    | _, _ => Except.error "IndexError: list index out of range"
  else
    Except.ok ([], [], [])

/-- The column loop of convert_prolif_df_to_enhanced_json, accumulating the
appended records in iteration order; an IndexError aborts the conversion as
the Python exception does. -/
def convertLoop (g : String → String) (h : String → Nat) (df : DataFrame) :
    List Nat → Except String (List Edge × List TrackProp × List TreeProp)
  | [] => Except.ok ([], [], [])
  | j :: js =>
    match colRecords g h df j with
    | Except.error e => Except.error e
    | Except.ok (es, ts, ps) =>
      match convertLoop g h df js with
      | Except.error e => Except.error e
      | Except.ok (es2, ts2, ps2) => Except.ok (es ++ es2, ts ++ ts2, ps ++ ps2)

/-- convert_prolif_df_to_enhanced_json (source lines 82-190): run the column
loop over all column indices and package the collected lists under the
"Boxes" track and the "Group-order" tree. -/
def convert_prolif_df_to_enhanced_json (g : String → String) (h : String → Nat)
    (df : DataFrame) : Except String FlareOutput :=
  match convertLoop g h df (List.range df.columns.length) with
  | Except.error e => Except.error e
  | Except.ok (es, ts, ps) => Except.ok ⟨es, [⟨"Boxes", ts⟩], [⟨"Group-order", ps⟩]⟩

/-- The data pipeline of generate_flareplot_from_fingerprint (source lines
36-39 and 193): threshold filtering followed by the conversion.  Loading the
pickle and wrapping the document in HTML are outside the data model. -/
def generate_flareplot_from_fingerprint (g : String → String) (h : String → Nat)
    (threshold : ℚ) (df : DataFrame) : Except String FlareOutput :=
  convert_prolif_df_to_enhanced_json g h (dfThreshold threshold df)

/-- All track-property records of an output document. -/
def trackPropsOf (out : FlareOutput) : List TrackProp :=
  (out.tracks.map Track.trackProperties).flatten

/-- All tree-property records of an output document. -/
def treePropsOf (out : FlareOutput) : List TreeProp :=
  (out.trees.map Tree.treeProperties).flatten

/-- Whether an Except value is a success. -/
def exceptOk {ε α : Type} : Except ε α → Bool
  | Except.ok _ => true
  | Except.error _ => false

/-- The tree-property records of a per-column result (empty on error). -/
def treePartOf : Except String (List Edge × List TrackProp × List TreeProp) → List TreeProp
  | Except.ok (_, _, ps) => ps
  | Except.error _ => []

/-- A fixed chain-color function for concrete instantiations. -/
def gW : String → String := fun _ => "#000000"

/-- A fixed string-hash function for concrete instantiations. -/
def hW : String → Nat := fun _ => 0

/-- Concrete table: ten frames, one column true in six of them. -/
def dfC6 : DataFrame :=
  ⟨[("LIG101.A", "ALA50.B", "Hydrophobic")],
   [[true], [true], [true], [true], [true], [true], [false], [false], [false], [false]]⟩

/-- Concrete table whose ligand label matches no residue pattern and has no
period. -/
def dfGarbage : DataFrame := ⟨[("garbage", "ALA50.B", "Hydrophobic")], [[true]]⟩

/-- Concrete table whose ligand label matches no residue pattern but contains
a period. -/
def dfLower : DataFrame := ⟨[("lys123.A", "ALA50.B", "Hydrophobic")], [[true]]⟩

/-- Concrete table with one column and no rows. -/
def dfEmpty : DataFrame := ⟨[("LYS123.A", "ALA50.B", "Hydrophobic")], []⟩

/-- Concrete table with one column true in its single frame. -/
def dfOne : DataFrame := ⟨[("LIG101.A", "ALA50.B", "Hydrophobic")], [[true]]⟩

/-- Concrete table with an interaction type outside the fixed palette. -/
def dfWater : DataFrame := ⟨[("LIG101.A", "ALA50.B", "Water")], [[true]]⟩

/-- The edge the single column of dfOne produces under gW and hW. -/
def edgeOne : Edge := ⟨"LIG101", "A50", weightOf dfOne 0, [0], "#905000"⟩

/-- The track-property records the single column of dfOne produces. -/
def tracksOne : List TrackProp :=
  [⟨"LIG101", "#000000", weightOf dfOne 0 * 2⟩, ⟨"A50", "#000000", weightOf dfOne 0 * 2⟩]

/-- The tree-property records the single column of dfOne produces. -/
def treesOne : List TreeProp := [⟨"A.LIG101"⟩, ⟨"B.A50"⟩]

/-- The whole document dfOne converts to under gW and hW. -/
def outOne : FlareOutput := ⟨[edgeOne], [⟨"Boxes", tracksOne⟩], [⟨"Group-order", treesOne⟩]⟩

/-- The edge the single column of dfWater produces under gW and hW. -/
def edgeWater : Edge := ⟨"LIG101", "A50", weightOf dfWater 0, [0], "#000000"⟩

/-- The track-property records the single column of dfWater produces. -/
def tracksWater : List TrackProp :=
  [⟨"LIG101", "#000000", weightOf dfWater 0 * 2⟩, ⟨"A50", "#000000", weightOf dfWater 0 * 2⟩]

/-- The tree-property records the single column of dfWater produces. -/
def treesWater : List TreeProp := [⟨"A.LIG101"⟩, ⟨"B.A50"⟩]


/-! Helper lemmas shared by the claim theorems. -/

theorem frameCount_le_totalFrames (df : DataFrame) (j : Nat) :
    frameCount df j ≤ totalFrames df :=
  List.countP_le_length _

/-- A zero-count column appends nothing (the body of lines 162-188 is guarded
by frame_count > 0). -/
theorem colRecords_of_zero (g : String → String) (h : String → Nat) (df : DataFrame)
    (j : Nat) (hz : frameCount df j = 0) :
    colRecords g h df j = Except.ok ([], [], []) := by
  simp only [colRecords]
  rw [if_neg (by omega)]

/-- Inversion of a successful loop iteration: either the column count is zero
and nothing was appended, or the count is positive and exactly one edge, two
track properties and two tree properties were appended, with the recorded
shapes. -/
theorem colRecords_ok_inv (g : String → String) (h : String → Nat) (df : DataFrame)
    (j : Nat) (es : List Edge) (ts : List TrackProp) (ps : List TreeProp)
    (hok : colRecords g h df j = Except.ok (es, ts, ps)) :
    (frameCount df j = 0 ∧ es = [] ∧ ts = [] ∧ ps = []) ∨
    (0 < frameCount df j ∧ ∃ n1 n2,
      (splitOnDot (convert_aa_code (colAt df j).1)).get? 1 = some n1 ∧
      (splitOnDot (convert_aa_code (colAt df j).2.1)).get? 1 = some n2 ∧
      es = [⟨n1, n2, weightOf df j, [0], edgeColor h (colAt df j).2.2⟩] ∧
      ts = [⟨n1, g ((splitOnDot (convert_aa_code (colAt df j).1)).headD ""), weightOf df j * 2⟩,
            ⟨n2, g ((splitOnDot (convert_aa_code (colAt df j).2.1)).headD ""), weightOf df j * 2⟩] ∧
      ps = [⟨convert_aa_code (colAt df j).1⟩, ⟨convert_aa_code (colAt df j).2.1⟩]) := by
  simp only [colRecords] at hok
  split at hok
  · rename_i hpos
    split at hok
    · rename_i n1 n2 h1 h2
      injection hok with hok
      injection hok with he hok
      injection hok with ht hp
      exact Or.inr ⟨hpos, n1, n2, h1, h2, he.symm, ht.symm, hp.symm⟩
    · exact absurd hok (by simp)
  · rename_i hpos
    injection hok with hok
    injection hok with he hok
    injection hok with ht hp
    exact Or.inl ⟨by omega, he.symm, ht.symm, hp.symm⟩

/-- The loop keeps track and tree lists exactly twice as long as the edge
list. -/
theorem convertLoop_counts (g : String → String) (h : String → Nat) (df : DataFrame) :
    ∀ (js : List Nat) (es : List Edge) (ts : List TrackProp) (ps : List TreeProp),
      convertLoop g h df js = Except.ok (es, ts, ps) →
      ts.length = 2 * es.length ∧ ps.length = 2 * es.length := by
  intro js
  induction js with
  | nil =>
    intro es ts ps hok
    simp only [convertLoop] at hok
    injection hok with hok
    injection hok with he hok
    injection hok with ht hp
    subst he; subst ht; subst hp
    simp
  | cons j js ih =>
    intro es ts ps hok
    simp only [convertLoop] at hok
    split at hok
    · exact absurd hok (by simp)
    · rename_i e1 t1 p1 h1
      split at hok
      · exact absurd hok (by simp)
      · rename_i e2 t2 p2 h2
        injection hok with hok
        injection hok with he hok
        injection hok with ht hp
        subst he; subst ht; subst hp
        have hrest := ih e2 t2 p2 h2
        have hhead : t1.length = 2 * e1.length ∧ p1.length = 2 * e1.length := by
          rcases colRecords_ok_inv g h df j e1 t1 p1 h1 with
            ⟨_, hs1, hs2, hs3⟩ | ⟨_, n1, n2, _, _, hs1, hs2, hs3⟩ <;>
            subst hs1 <;> subst hs2 <;> subst hs3 <;> simp
        simp only [List.length_append]
        omega

/-- The loop emits every edge with the literal frames marker [0]. -/
theorem convertLoop_frames (g : String → String) (h : String → Nat) (df : DataFrame) :
    ∀ (js : List Nat) (es : List Edge) (ts : List TrackProp) (ps : List TreeProp),
      convertLoop g h df js = Except.ok (es, ts, ps) →
      es.map Edge.frames = List.replicate es.length [0] := by
  intro js
  induction js with
  | nil =>
    intro es ts ps hok
    simp only [convertLoop] at hok
    injection hok with hok
    injection hok with he hok
    subst he
    simp
  | cons j js ih =>
    intro es ts ps hok
    simp only [convertLoop] at hok
    split at hok
    · exact absurd hok (by simp)
    · rename_i e1 t1 p1 h1
      split at hok
      · exact absurd hok (by simp)
      · rename_i e2 t2 p2 h2
        injection hok with hok
        injection hok with he hok
        subst he
        have hrest := ih e2 t2 p2 h2
        have hhead : e1.map Edge.frames = List.replicate e1.length [0] := by
          rcases colRecords_ok_inv g h df j e1 t1 p1 h1 with
            ⟨_, hs1, _, _⟩ | ⟨_, n1, n2, _, _, hs1, _, _⟩ <;> subst hs1 <;> simp
        simp [List.map_append, hhead, hrest, List.append_replicate_replicate]

/-- Inversion of a successful conversion: the document packages the loop
results under the single "Boxes" track and "Group-order" tree. -/
theorem convert_ok_inv (g : String → String) (h : String → Nat) (df : DataFrame)
    (out : FlareOutput) (hok : convert_prolif_df_to_enhanced_json g h df = Except.ok out) :
    ∃ es ts ps, convertLoop g h df (List.range df.columns.length) = Except.ok (es, ts, ps) ∧
      out = ⟨es, [⟨"Boxes", ts⟩], [⟨"Group-order", ps⟩]⟩ := by
  simp only [convert_prolif_df_to_enhanced_json] at hok
  split at hok
  · exact absurd hok (by simp)
  · rename_i es ts ps hloop
    injection hok with hok
    exact ⟨es, ts, ps, hloop, hok.symm⟩

/-- Evaluating the filter on a one-column table whose frequency clears the
threshold. -/
theorem retainedIdx_single (t : ℚ) (df : DataFrame) (hcols : df.columns.length = 1)
    (htf : totalFrames df ≠ 0) (ht : t ≤ colFreq df 0) :
    retainedIdx t df = [0] := by
  unfold retainedIdx
  rw [if_neg htf, hcols]
  have h0 : List.range 1 = [0] := rfl
  rw [h0]
  simp [List.filter, decide_eq_true ht]

/-- The single column of dfOne is present in its single frame. -/
theorem colFreq_dfOne : colFreq dfOne 0 = 1 := by
  have h1 : frameCount dfOne 0 = 1 := rfl
  have h2 : totalFrames dfOne = 1 := rfl
  unfold colFreq
  rw [h1, h2]
  norm_num

/-- Filtering dfOne at threshold 1/2 keeps it unchanged. -/
theorem dfThreshold_dfOne : dfThreshold (1/2) dfOne = dfOne := by
  have hr : retainedIdx (1/2) dfOne = [0] :=
    retainedIdx_single (1/2) dfOne rfl (by decide) (by rw [colFreq_dfOne]; norm_num)
  unfold dfThreshold
  rw [hr]
  rfl

/-- C5: the label normalizer maps "LYS123.A" to "A.K123", keeps the
unrecognized three-letter code of "XYZ45.B" as-is giving "B.XYZ45", and
returns the non-matching string "garbage" unchanged. -/
theorem convert_aa_code_examples :
    convert_aa_code "LYS123.A" = "A.K123" ∧
    convert_aa_code "XYZ45.B" = "B.XYZ45" ∧
    convert_aa_code "garbage" = "garbage" :=
  ⟨by decide, by decide, by decide⟩

/-- C2: for thresholds t1 ≤ t2, every column index retained at t2 is also
retained at t1 (monotonicity of the threshold filter). -/
theorem threshold_filter_monotone (t1 t2 : ℚ) (df : DataFrame) (h12 : t1 ≤ t2)
    (j : Nat) (hj : j ∈ retainedIdx t2 df) : j ∈ retainedIdx t1 df := by
  unfold retainedIdx at hj ⊢
  by_cases hz : totalFrames df = 0
  · rw [if_pos hz] at hj
    exact absurd hj (List.not_mem_nil j)
  · rw [if_neg hz] at hj ⊢
    rw [List.mem_filter] at hj ⊢
    exact ⟨hj.1, decide_eq_true (le_trans h12 (of_decide_eq_true hj.2))⟩

/-- Witness for C2 at thresholds 0 ≤ 1/2 on the concrete table dfOne. -/
theorem threshold_filter_monotone_wit :
    (0 : ℚ) ≤ 1/2 ∧ 0 ∈ retainedIdx (1/2) dfOne ∧ 0 ∈ retainedIdx 0 dfOne := by
  have hmem : 0 ∈ retainedIdx (1/2) dfOne := by
    rw [retainedIdx_single (1/2) dfOne rfl (by decide) (by rw [colFreq_dfOne]; norm_num)]
    exact List.mem_singleton.mpr rfl
  exact ⟨by norm_num, hmem, threshold_filter_monotone 0 (1/2) dfOne (by norm_num) 0 hmem⟩

/-- C4: a table with zero rows is treated as no columns passing the filter,
and converts to a document with empty edges, empty trackProperties and empty
treeProperties; no division by zero occurs. -/
theorem zero_rows_empty_output (g : String → String) (h : String → Nat) (t : ℚ)
    (df : DataFrame) (hz : df.rows = []) :
    retainedIdx t df = [] ∧
    generate_flareplot_from_fingerprint g h t df =
      Except.ok ⟨[], [⟨"Boxes", []⟩], [⟨"Group-order", []⟩]⟩ := by
  have htf : totalFrames df = 0 := by unfold totalFrames; rw [hz]; rfl
  have hr : retainedIdx t df = [] := by unfold retainedIdx; rw [if_pos htf]
  refine ⟨hr, ?_⟩
  unfold generate_flareplot_from_fingerprint
  have hdf : dfThreshold t df = ⟨[], []⟩ := by
    unfold dfThreshold
    rw [hr, hz]
    rfl
  rw [hdf]
  rfl

/-- Witness for C4 on the concrete zero-row table dfEmpty. -/
theorem zero_rows_empty_output_wit :
    dfEmpty.rows = [] ∧
    retainedIdx (1/2) dfEmpty = [] ∧
    generate_flareplot_from_fingerprint gW hW (1/2) dfEmpty =
      Except.ok ⟨[], [⟨"Boxes", []⟩], [⟨"Group-order", []⟩]⟩ := by
  have hmain := zero_rows_empty_output gW hW (1/2) dfEmpty rfl
  exact ⟨rfl, hmain.1, hmain.2⟩

/-- C1: for a column of the filtered table with a positive truthy-frame
count, the edge the loop iteration produces has width equal to
frame_count / total_frames, and that ratio is positive and at most one. -/
theorem edge_weight_in_unit (g : String → String) (h : String → Nat)
    (t : ℚ) (df : DataFrame) (j : Nat)
    (hfc : 0 < frameCount (dfThreshold t df) j)
    (es : List Edge) (ts : List TrackProp) (ps : List TreeProp)
    (hok : colRecords g h (dfThreshold t df) j = Except.ok (es, ts, ps)) :
    es.map Edge.width =
      [(frameCount (dfThreshold t df) j : ℚ) / (totalFrames (dfThreshold t df) : ℚ)] ∧
    0 < (frameCount (dfThreshold t df) j : ℚ) / (totalFrames (dfThreshold t df) : ℚ) ∧
    (frameCount (dfThreshold t df) j : ℚ) / (totalFrames (dfThreshold t df) : ℚ) ≤ 1 := by
  set F := dfThreshold t df with hF
  have htot : 0 < totalFrames F := lt_of_lt_of_le hfc (frameCount_le_totalFrames F j)
  have hw : weightOf F j = (frameCount F j : ℚ) / (totalFrames F : ℚ) := by
    unfold weightOf
    rw [if_pos htot]
  refine ⟨?_, ?_, ?_⟩
  · rcases colRecords_ok_inv g h F j es ts ps hok with ⟨hz, _⟩ | ⟨_, n1, n2, _, _, hs1, _, _⟩
    · omega
    · subst hs1
      simp [hw]
  · exact div_pos (by exact_mod_cast hfc) (by exact_mod_cast htot)
  · rw [div_le_one (by exact_mod_cast htot)]
    exact_mod_cast frameCount_le_totalFrames F j

/-- Witness for C1 on the concrete table dfOne at threshold 1/2. -/
theorem edge_weight_in_unit_wit :
    0 < frameCount (dfThreshold (1/2) dfOne) 0 ∧
    colRecords gW hW (dfThreshold (1/2) dfOne) 0 =
      Except.ok ([edgeOne], tracksOne, treesOne) ∧
    [edgeOne].map Edge.width =
      [(frameCount (dfThreshold (1/2) dfOne) 0 : ℚ) / (totalFrames (dfThreshold (1/2) dfOne) : ℚ)] ∧
    0 < (frameCount (dfThreshold (1/2) dfOne) 0 : ℚ) / (totalFrames (dfThreshold (1/2) dfOne) : ℚ) ∧
    (frameCount (dfThreshold (1/2) dfOne) 0 : ℚ) / (totalFrames (dfThreshold (1/2) dfOne) : ℚ) ≤ 1 := by
  have hfc : 0 < frameCount (dfThreshold (1/2) dfOne) 0 := by
    rw [dfThreshold_dfOne]
    decide
  have hok : colRecords gW hW (dfThreshold (1/2) dfOne) 0 =
      Except.ok ([edgeOne], tracksOne, treesOne) := by
    rw [dfThreshold_dfOne]
    rfl
  have hmain := edge_weight_in_unit gW hW (1/2) dfOne 0 hfc [edgeOne] tracksOne treesOne hok
  exact ⟨hfc, hok, hmain.1, hmain.2.1, hmain.2.2⟩

/-- The single column of dfC6 is present in six of its ten frames. -/
theorem colFreq_dfC6 : colFreq dfC6 0 = 3/5 := by
  have h1 : frameCount dfC6 0 = 6 := rfl
  have h2 : totalFrames dfC6 = 10 := rfl
  unfold colFreq
  rw [h1, h2]
  norm_num

/-- Filtering dfC6 at the default threshold keeps it unchanged. -/
theorem dfThreshold_dfC6 : dfThreshold (1/2) dfC6 = dfC6 := by
  have hr : retainedIdx (1/2) dfC6 = [0] :=
    retainedIdx_single (1/2) dfC6 rfl (by decide) (by rw [colFreq_dfC6]; norm_num)
  unfold dfThreshold
  rw [hr]
  rfl

/-- The weight of the single column of dfC6 is 3/5. -/
theorem weightOf_dfC6 : weightOf dfC6 0 = 3/5 := by
  have h1 : frameCount dfC6 0 = 6 := rfl
  have h2 : totalFrames dfC6 = 10 := rfl
  unfold weightOf
  rw [h1, h2]
  norm_num

/-- C6: a ten-frame table with the single column (LIG101.A, ALA50.B,
Hydrophobic) truthy in six frames converts, at the default threshold 1/2,
to exactly one edge with name1 "LIG101", name2 "A50", width 3/5, frames [0]
and color "#905000", plus one track-property and one tree-property entry per
endpoint. -/
theorem end_to_end_single_column (g : String → String) (h : String → Nat) :
    generate_flareplot_from_fingerprint g h (1/2) dfC6 =
      Except.ok ⟨[⟨"LIG101", "A50", 3/5, [0], "#905000"⟩],
                 [⟨"Boxes", [⟨"LIG101", g "A", 6/5⟩, ⟨"A50", g "B", 6/5⟩]⟩],
                 [⟨"Group-order", [⟨"A.LIG101"⟩, ⟨"B.A50"⟩]⟩]⟩ := by
  unfold generate_flareplot_from_fingerprint
  rw [dfThreshold_dfC6]
  have hconv : convert_prolif_df_to_enhanced_json g h dfC6 = Except.ok
      ⟨[⟨"LIG101", "A50", weightOf dfC6 0, [0], "#905000"⟩],
       [⟨"Boxes", [⟨"LIG101", g "A", weightOf dfC6 0 * 2⟩, ⟨"A50", g "B", weightOf dfC6 0 * 2⟩]⟩],
       [⟨"Group-order", [⟨"A.LIG101"⟩, ⟨"B.A50"⟩]⟩]⟩ := rfl
  rw [hconv, weightOf_dfC6]
  norm_num

/-- C7: zero-count columns append nothing; positive-count iterations that
succeed append exactly one edge, two track properties and two tree
properties; consequently every successfully produced document has exactly
twice as many track-property and tree-property records as edges. -/
theorem record_multiplicity_invariant (g : String → String) (h : String → Nat)
    (df : DataFrame) :
    (∀ j, frameCount df j = 0 → colRecords g h df j = Except.ok ([], [], [])) ∧
    (∀ j es ts ps, 0 < frameCount df j → colRecords g h df j = Except.ok (es, ts, ps) →
      es.length = 1 ∧ ts.length = 2 ∧ ps.length = 2) ∧
    (∀ out, convert_prolif_df_to_enhanced_json g h df = Except.ok out →
      (trackPropsOf out).length = 2 * out.edges.length ∧
      (treePropsOf out).length = 2 * out.edges.length) := by
  refine ⟨fun j hz => colRecords_of_zero g h df j hz, ?_, ?_⟩
  · intro j es ts ps hpos hok
    rcases colRecords_ok_inv g h df j es ts ps hok with ⟨hz, _⟩ | ⟨_, n1, n2, _, _, hs1, hs2, hs3⟩
    · omega
    · subst hs1
      subst hs2
      subst hs3
      exact ⟨rfl, rfl, rfl⟩
  · intro out hok
    obtain ⟨es, ts, ps, hloop, hout⟩ := convert_ok_inv g h df out hok
    subst hout
    have hcnt := convertLoop_counts g h df _ es ts ps hloop
    simpa [trackPropsOf, treePropsOf] using hcnt

/-- Witness for C7 on the concrete table dfOne. -/
theorem record_multiplicity_invariant_wit :
    frameCount dfOne 5 = 0 ∧
    colRecords gW hW dfOne 5 = Except.ok ([], [], []) ∧
    convert_prolif_df_to_enhanced_json gW hW dfOne = Except.ok outOne ∧
    (trackPropsOf outOne).length = 2 * outOne.edges.length ∧
    (treePropsOf outOne).length = 2 * outOne.edges.length := by
  have hconv : convert_prolif_df_to_enhanced_json gW hW dfOne = Except.ok outOne := rfl
  have hmain := record_multiplicity_invariant gW hW dfOne
  exact ⟨rfl, hmain.1 5 rfl, hconv, (hmain.2.2 outOne hconv).1, (hmain.2.2 outOne hconv).2⟩

/-- C8: every edge a loop iteration emits is colored by the palette lookup of
the interaction type of the column with the hash-derived fallback, so the color is
a function of the type string alone; in particular "HBDonor" always maps to
"#0000FF", and a type outside the palette maps to the fallback of its own
string. -/
theorem edge_color_by_type (g : String → String) (h : String → Nat)
    (df : DataFrame) (j : Nat) :
    (∀ es ts ps, colRecords g h df j = Except.ok (es, ts, ps) →
      es.map Edge.color = List.replicate es.length (edgeColor h (colAt df j).2.2)) ∧
    edgeColor h "HBDonor" = "#0000FF" ∧
    (∀ ty, interaction_colors.lookup ty = none →
      edgeColor h ty = "#" ++ hex6 (h ty % 0xffffff)) := by
  refine ⟨?_, rfl, ?_⟩
  · intro es ts ps hok
    rcases colRecords_ok_inv g h df j es ts ps hok with ⟨_, hs1, _, _⟩ |
      ⟨_, n1, n2, _, _, hs1, _, _⟩ <;> subst hs1 <;> rfl
  · intro ty hnone
    unfold edgeColor
    rw [hnone]
    rfl

/-- Witness for C8 on the concrete table dfWater whose interaction type is
outside the palette. -/
theorem edge_color_by_type_wit :
    colRecords gW hW dfWater 0 = Except.ok ([edgeWater], tracksWater, treesWater) ∧
    [edgeWater].map Edge.color =
      List.replicate [edgeWater].length (edgeColor hW (colAt dfWater 0).2.2) ∧
    edgeColor hW "HBDonor" = "#0000FF" ∧
    interaction_colors.lookup "Water" = none ∧
    edgeColor hW "Water" = "#" ++ hex6 (hW "Water" % 0xffffff) := by
  have hok : colRecords gW hW dfWater 0 =
      Except.ok ([edgeWater], tracksWater, treesWater) := rfl
  have hmain := edge_color_by_type gW hW dfWater 0
  exact ⟨hok, hmain.1 [edgeWater] tracksWater treesWater hok, hmain.2.1, rfl,
    hmain.2.2 "Water" rfl⟩

/-- C9: every track-property record a loop iteration emits has size exactly
twice the width of the edge emitted with it, and every emitted edge carries
the literal frames marker [0], whatever frames contained the interaction. -/
theorem track_size_twice_width_frames_zero (g : String → String) (h : String → Nat)
    (df : DataFrame) :
    (∀ j es ts ps, colRecords g h df j = Except.ok (es, ts, ps) →
      ts.map TrackProp.size = es.flatMap (fun e => [e.width * 2, e.width * 2]) ∧
      es.map Edge.frames = List.replicate es.length [0]) ∧
    (∀ out, convert_prolif_df_to_enhanced_json g h df = Except.ok out →
      out.edges.map Edge.frames = List.replicate out.edges.length [0]) := by
  constructor
  · intro j es ts ps hok
    rcases colRecords_ok_inv g h df j es ts ps hok with ⟨_, hs1, hs2, _⟩ |
      ⟨_, n1, n2, _, _, hs1, hs2, _⟩ <;> subst hs1 <;> subst hs2 <;> exact ⟨rfl, rfl⟩
  · intro out hok
    obtain ⟨es, ts, ps, hloop, hout⟩ := convert_ok_inv g h df out hok
    subst hout
    exact convertLoop_frames g h df _ es ts ps hloop

/-- Witness for C9 on the concrete table dfOne. -/
theorem track_size_twice_width_frames_zero_wit :
    colRecords gW hW dfOne 0 = Except.ok ([edgeOne], tracksOne, treesOne) ∧
    tracksOne.map TrackProp.size = [edgeOne].flatMap (fun e => [e.width * 2, e.width * 2]) ∧
    [edgeOne].map Edge.frames = List.replicate [edgeOne].length [0] ∧
    convert_prolif_df_to_enhanced_json gW hW dfOne = Except.ok outOne ∧
    outOne.edges.map Edge.frames = List.replicate outOne.edges.length [0] := by
  have hok : colRecords gW hW dfOne 0 = Except.ok ([edgeOne], tracksOne, treesOne) := rfl
  have hconv : convert_prolif_df_to_enhanced_json gW hW dfOne = Except.ok outOne := rfl
  have hmain := track_size_twice_width_frames_zero gW hW dfOne
  exact ⟨hok, (hmain.1 0 [edgeOne] tracksOne treesOne hok).1,
    (hmain.1 0 [edgeOne] tracksOne treesOne hok).2, hconv, hmain.2 outOne hconv⟩

/-- The single column of dfGarbage is present in its single frame. -/
theorem colFreq_dfGarbage : colFreq dfGarbage 0 = 1 := by
  have h1 : frameCount dfGarbage 0 = 1 := rfl
  have h2 : totalFrames dfGarbage = 1 := rfl
  unfold colFreq
  rw [h1, h2]
  norm_num

/-- Counterexample to C3 as stated: on a filtered table whose column carries
the period-free non-matching ligand label "garbage" and is truthy in one
frame, the conversion is fatal, raising the IndexError of indexing the
period split of name1 at [1]. -/
theorem garbage_label_fatal_cex :
    generate_flareplot_from_fingerprint gW hW (1/2) dfGarbage =
      Except.error "IndexError: list index out of range" := by
  unfold generate_flareplot_from_fingerprint
  have hdf : dfThreshold (1/2) dfGarbage = dfGarbage := by
    unfold dfThreshold
    rw [retainedIdx_single (1/2) dfGarbage rfl (by decide)
      (by rw [colFreq_dfGarbage]; norm_num)]
    rfl
  rw [hdf]
  rfl

/-- C3 as amended: a non-matching endpoint label passes through the
normalizer unchanged, and the conversion of its column is non-fatal whenever
the label still contains a period (and the other endpoint also splits into at
least two parts); on a positive-count column the unnormalized label then
passes into the output tree paths.  (Without a period, the counterexample
shows the conversion raises an IndexError instead.) -/
theorem malformed_label_passthrough (g : String → String) (h : String → Nat)
    (df : DataFrame) (j : Nat)
    (hnm : matchResidue (colAt df j).1.toList = none)
    (hper : 2 ≤ (splitOnDot (colAt df j).1).length)
    (hp2 : 2 ≤ (splitOnDot (convert_aa_code (colAt df j).2.1)).length) :
    convert_aa_code (colAt df j).1 = (colAt df j).1 ∧
    exceptOk (colRecords g h df j) = true ∧
    (0 < frameCount df j →
      TreeProp.mk (colAt df j).1 ∈ treePartOf (colRecords g h df j)) := by
  have hcv : convert_aa_code (colAt df j).1 = (colAt df j).1 := by
    unfold convert_aa_code
    rw [hnm]
  have h1 : ∃ y, (splitOnDot (convert_aa_code (colAt df j).1)).get? 1 = some y := by
    rw [hcv]
    cases hg : (splitOnDot (colAt df j).1).get? 1 with
    | some y => exact ⟨y, rfl⟩
    | none =>
      rw [List.get?_eq_none] at hg
      omega
  have h2 : ∃ y, (splitOnDot (convert_aa_code (colAt df j).2.1)).get? 1 = some y := by
    cases hg : (splitOnDot (convert_aa_code (colAt df j).2.1)).get? 1 with
    | some y => exact ⟨y, rfl⟩
    | none =>
      rw [List.get?_eq_none] at hg
      omega
  by_cases hfc : 0 < frameCount df j
  · obtain ⟨y1, hy1⟩ := h1
    obtain ⟨y2, hy2⟩ := h2
    have hok : colRecords g h df j = Except.ok
        ([⟨y1, y2, weightOf df j, [0], edgeColor h (colAt df j).2.2⟩],
         [⟨y1, g ((splitOnDot (convert_aa_code (colAt df j).1)).headD ""), weightOf df j * 2⟩,
          ⟨y2, g ((splitOnDot (convert_aa_code (colAt df j).2.1)).headD ""), weightOf df j * 2⟩],
         [⟨convert_aa_code (colAt df j).1⟩, ⟨convert_aa_code (colAt df j).2.1⟩]) := by
      simp only [colRecords]
      rw [if_pos hfc, hy1, hy2]
    refine ⟨hcv, by rw [hok]; rfl, fun _ => ?_⟩
    rw [hok]
    show TreeProp.mk (colAt df j).1 ∈
      [TreeProp.mk (convert_aa_code (colAt df j).1), TreeProp.mk (convert_aa_code (colAt df j).2.1)]
    rw [hcv]
    exact List.mem_cons_self _ _
  · have hz : frameCount df j = 0 := by omega
    have hok := colRecords_of_zero g h df j hz
    exact ⟨hcv, by rw [hok]; rfl, fun hcontra => absurd hcontra hfc⟩

/-- Witness for the amended C3 on the concrete table dfLower, whose ligand
label "lys123.A" matches no residue pattern but contains a period. -/
theorem malformed_label_passthrough_wit :
    matchResidue "lys123.A".toList = none ∧
    2 ≤ (splitOnDot "lys123.A").length ∧
    0 < frameCount dfLower 0 ∧
    convert_aa_code "lys123.A" = "lys123.A" ∧
    exceptOk (colRecords gW hW dfLower 0) = true ∧
    TreeProp.mk "lys123.A" ∈ treePartOf (colRecords gW hW dfLower 0) := by
  have hmain := malformed_label_passthrough gW hW dfLower 0 (by decide) (by decide) (by decide)
  exact ⟨by decide, by decide, by decide, hmain.1, hmain.2.1, hmain.2.2 (by decide)⟩

/-- takeWhile and dropWhile split an append exactly at the boundary when the
left part satisfies the predicate throughout and the right part starts with a
failing element (or is empty). -/
theorem takeWhile_dropWhile_append (p : Char → Bool) (l r : List Char)
    (hl : ∀ x ∈ l, p x = true) (hr : ∀ y, r.head? = some y → p y = false) :
    (l ++ r).takeWhile p = l ∧ (l ++ r).dropWhile p = r := by
  induction l with
  | nil =>
    cases r with
    | nil => exact ⟨rfl, rfl⟩
    | cons y ys =>
      have hy : p y = false := hr y rfl
      constructor
      · simp [List.takeWhile_cons, hy]
      · simp [List.dropWhile_cons, hy]
  | cons x xs ih =>
    have hx : p x = true := hl x (List.mem_cons_self x xs)
    have ihh := ih (fun z hz => hl z (List.mem_cons_of_mem x hz))
    constructor
    · simp [List.takeWhile_cons, hx, ihh.1]
    · simp [List.dropWhile_cons, hx, ihh.2]

/-- The residue pattern matches any well-formed prefix of three capital
letters, digits, a period and a chain token, discarding whatever follows the
chain token as long as it does not extend it. -/
theorem matchResidue_full (a b c : Char) (num chain rest : List Char)
    (ha : isUpperAZ a = true) (hb : isUpperAZ b = true) (hc : isUpperAZ c = true)
    (hnum : num ≠ []) (hnumd : ∀ x ∈ num, isDigit09 x = true)
    (hch : chain ≠ []) (hchc : ∀ x ∈ chain, isChainChar x = true)
    (hrest : ∀ y, rest.head? = some y → isChainChar y = false) :
    matchResidue (a :: b :: c :: (num ++ '.' :: (chain ++ rest))) =
      some ([a, b, c], num, chain) := by
  have hd : ∀ y, (('.' :: (chain ++ rest)).head? = some y) → isDigit09 y = false := by
    intro y hy
    injection hy with hy
    subst hy
    decide
  have h1 := takeWhile_dropWhile_append isDigit09 num ('.' :: (chain ++ rest)) hnumd hd
  have h2 := takeWhile_dropWhile_append isChainChar chain rest hchc hrest
  simp only [matchResidue]
  rw [ha, hb, hc]
  simp only [Bool.and_self, if_true]
  rw [h1.1, h1.2, if_neg hnum]
  simp only []
  rw [h2.1, if_neg hch]

/-- C10: the residue-pattern match is anchored only at the start: for an
input made of a well-formed residue identifier followed by trailing
characters that do not extend the chain token, the normalizer returns the
normalized form of the leading identifier and silently discards the trailing
characters, so it is not injective on such inputs. -/
theorem match_anchored_trailing_discard (a b c : Char) (num chain rest : List Char)
    (ha : isUpperAZ a = true) (hb : isUpperAZ b = true) (hc : isUpperAZ c = true)
    (hnum : num ≠ []) (hnumd : ∀ x ∈ num, isDigit09 x = true)
    (hch : chain ≠ []) (hchc : ∀ x ∈ chain, isChainChar x = true)
    (hrest : ∀ y, rest.head? = some y → isChainChar y = false) :
    convert_aa_code (String.mk (a :: b :: c :: (num ++ '.' :: (chain ++ rest)))) =
      String.mk chain ++ "." ++
        ((aa_code_map.lookup (String.mk ([a, b, c].map Char.toUpper))).getD
          (String.mk [a, b, c])) ++ String.mk num ∧
    convert_aa_code (String.mk (a :: b :: c :: (num ++ '.' :: (chain ++ rest)))) =
      convert_aa_code (String.mk (a :: b :: c :: (num ++ '.' :: chain))) ∧
    (rest ≠ [] →
      String.mk (a :: b :: c :: (num ++ '.' :: (chain ++ rest))) ≠
        String.mk (a :: b :: c :: (num ++ '.' :: chain))) := by
  have key1 := matchResidue_full a b c num chain rest ha hb hc hnum hnumd hch hchc hrest
  have key2 : matchResidue (a :: b :: c :: (num ++ '.' :: chain)) =
      some ([a, b, c], num, chain) := by
    have key := matchResidue_full a b c num chain [] ha hb hc hnum hnumd hch hchc
      (fun y hy => by injection hy)
    rwa [List.append_nil] at key
  have e1 : convert_aa_code (String.mk (a :: b :: c :: (num ++ '.' :: (chain ++ rest)))) =
      String.mk chain ++ "." ++
        ((aa_code_map.lookup (String.mk ([a, b, c].map Char.toUpper))).getD
          (String.mk [a, b, c])) ++ String.mk num := by
    unfold convert_aa_code
    rw [show (String.mk (a :: b :: c :: (num ++ '.' :: (chain ++ rest)))).toList =
      a :: b :: c :: (num ++ '.' :: (chain ++ rest)) from rfl]
    rw [key1]
  have e2 : convert_aa_code (String.mk (a :: b :: c :: (num ++ '.' :: chain))) =
      String.mk chain ++ "." ++
        ((aa_code_map.lookup (String.mk ([a, b, c].map Char.toUpper))).getD
          (String.mk [a, b, c])) ++ String.mk num := by
    unfold convert_aa_code
    rw [show (String.mk (a :: b :: c :: (num ++ '.' :: chain))).toList =
      a :: b :: c :: (num ++ '.' :: chain) from rfl]
    rw [key2]
  refine ⟨e1, e1.trans e2.symm, ?_⟩
  intro hne heq
  have hdata : (a :: b :: c :: (num ++ '.' :: (chain ++ rest))) =
      (a :: b :: c :: (num ++ '.' :: chain)) := congrArg String.data heq
  have hlen := congrArg List.length hdata
  simp only [List.length_cons, List.length_append] at hlen
  have hr0 : rest.length = 0 := by omega
  exact hne (List.length_eq_zero.mp hr0)

/-- Witness for C10: "LYS123.A xyz" normalizes to "A.K123", the same output
as "LYS123.A", although the two inputs differ. -/
theorem match_anchored_trailing_discard_wit :
    convert_aa_code "LYS123.A xyz" = "A.K123" ∧
    convert_aa_code "LYS123.A xyz" = convert_aa_code "LYS123.A" ∧
    "LYS123.A xyz" ≠ "LYS123.A" := by
  have hmain := match_anchored_trailing_discard 'L' 'Y' 'S' ['1', '2', '3'] ['A']
    [' ', 'x', 'y', 'z'] (by decide) (by decide) (by decide) (by decide) (by decide)
    (by decide) (by decide) (by decide)
  have hs1 : "LYS123.A xyz" =
      String.mk ('L' :: 'Y' :: 'S' :: (['1', '2', '3'] ++ '.' :: (['A'] ++ [' ', 'x', 'y', 'z']))) := by
    decide
  have hs2 : "LYS123.A" = String.mk ('L' :: 'Y' :: 'S' :: (['1', '2', '3'] ++ '.' :: ['A'])) := by
    decide
  refine ⟨?_, ?_, ?_⟩
  · rw [hs1, hmain.1]
    decide
  · rw [hs1, hs2]
    exact hmain.2.1
  · rw [hs1, hs2]
    exact hmain.2.2 (by decide)

end Flareplot
